import Mathlib

/-!
Verification development for the TimeGrid school-timetable application
(`timetable/models.py`, `timetable/solver.py`, `timetable/views.py`).

The Python sources are shallowly embedded below:
* a small model of Python JSON-like values (`PyVal`) captures the permissive
  availability parsing in `Teacher.get_availability_dict` /
  `Room.get_availability_dict` and the lookup `is_available`
  (the two methods have textually identical bodies, so they are embedded once);
* the solver data preparation (`TimetableSolver.create_variables`), the
  constraint emission (`add_hard_constraints`, `add_soft_constraints`), the
  solve driver branch structure, `save_solution` and
  `generate_conflict_report` are embedded as pure functions over explicit
  entity lists, with the CP-SAT model represented by a syntax of constraints
  (`Cons`) together with a satisfaction semantics over variable assignments;
* the view `update_entry` and the helper `generate_timeslots` are embedded as
  pure state transformers over explicit table contents.

`json.loads` is modelled by an abstract parameter
`parse : String → Option PyVal` (`none` = `JSONDecodeError`).  Python
exceptions that escape a modelled function are represented by `Option`
results (`none` = the call raises).  Display-only entity fields (names,
e-mail addresses, human-readable strings inside messages) are not modelled;
entities are identified by their primary keys.
-/

namespace Timegrid

/-- Keys of a Python dict as they occur in JSON-like availability data:
either ints or strings. -/
inductive PyKey where
  | kInt (n : Int)
  | kStr (s : String)
deriving DecidableEq

/-- Python JSON-like values.  Dicts are association lists; a later binding of
an equal key overwrites an earlier one, which the lookup functions below
reflect by letting the last matching binding win. -/
inductive PyVal where
  | pyNone
  | pyBool (b : Bool)
  | pyInt (n : Int)
  | pyStr (s : String)
  | pyList (xs : List PyVal)
  | pyDict (entries : List (PyKey × PyVal))

/-- Python `str()` on a dict key. -/
def pyKeyStr : PyKey → String
  | .kInt n => toString n
  | .kStr s => s

/-- Python truthiness (`bool(v)`). -/
def pyTruthy : PyVal → Bool
  | .pyNone => false
  | .pyBool b => b
  | .pyInt n => n != 0
  | .pyStr s => s != ""
  | .pyList xs => !xs.isEmpty
  | .pyDict es => !es.isEmpty

/-- Whether a Python value is an actual `bool` (`isinstance(v, bool)`). -/
def isPyBool : PyVal → Bool
  | .pyBool _ => true
  | _ => false

/-- One entry of the normalized availability dict produced by
`get_availability_dict`: a nested dict value has been coerced to
`{str(pk): bool(pv)}`, any other value is kept as is. -/
inductive NormVal where
  | ndict (nested : List (String × Bool))
  | nraw (v : PyVal)

/-- Lookup in a raw Python dict by the string form of the key; the last
matching binding wins (later insertions overwrite earlier ones). -/
def lookupLast (entries : List (PyKey × PyVal)) (s : String) : Option PyVal :=
  entries.foldl (fun acc kv => if pyKeyStr kv.1 == s then some kv.2 else acc) none

/-- Lookup in a string-keyed association list, last binding wins. -/
def lookupLastS {β : Type} (entries : List (String × β)) (s : String) : Option β :=
  entries.foldl (fun acc kv => if kv.1 == s then some kv.2 else acc) none

/-- Normalization of one dict value performed by `get_availability_dict`:
`if isinstance(v, dict): nested[str(pk)] = bool(pv) ... else: normalized[sk] = v`. -/
def normVal : PyVal → NormVal
  | .pyDict des => .ndict (des.map fun kv => (pyKeyStr kv.1, pyTruthy kv.2))
  | v => .nraw v

/-- Normalization of all dict entries (`for k, v in data.items(): ...`),
string-coercing the outer keys. -/
def normalizeEntries (entries : List (PyKey × PyVal)) : List (String × NormVal) :=
  entries.map fun kv => (pyKeyStr kv.1, normVal kv.2)

/-- `Teacher.get_availability_dict` / `Room.get_availability_dict`
(identical bodies).  `parse` models `json.loads`; a parse failure yields `{}`.
`none` models the `AttributeError` raised by `data.items()` when the stored
value is truthy but not a dict. -/
def get_availability_dict (parse : String → Option PyVal) (raw : PyVal) :
    Option (List (String × NormVal)) :=
  let raw2 := match raw with
    | .pyStr s => (parse s).getD (.pyDict [])
    | v => v
  let data := if pyTruthy raw2 then raw2 else .pyDict []
  match data with
  | .pyDict entries => some (normalizeEntries entries)
  | _ => none

/-- `Teacher.is_available` / `Room.is_available` (identical bodies).
The normalized dict is string-keyed, so the fallback lookups with the raw
integer key (`avail.get(day_index, {})`, `day.get(period_index, True)`)
never match and only contribute their defaults. -/
def is_available (parse : String → Option PyVal) (raw : PyVal)
    (day period : Nat) : Option Bool :=
  match get_availability_dict parse raw with
  | none => none
  | some avail =>
    some (match lookupLastS avail (toString day) with
      | some (.ndict nested) => (lookupLastS nested (toString period)).getD true
      | some (.nraw _) => true
      | none => true)

/-- A `json.loads` stand-in that fails on every input, used by concrete
witnesses (any concrete non-JSON payload parses to `none`). -/
def parseNone : String → Option PyVal := fun _ => none

section AvailabilityLemmas

/-- A last-match fold whose hits are pushed through `g` equals the plain
last-match fold followed by `Option.map g`. -/
theorem foldl_if_some_map {α β γ : Type} (p : α → Bool) (val : α → β)
    (g : β → γ) (l : List α) :
    ∀ acc : Option β,
      l.foldl (fun acc x => if p x then some (g (val x)) else acc) (acc.map g) =
        (l.foldl (fun acc x => if p x then some (val x) else acc) acc).map g := by
  induction l with
  | nil => intro acc; rfl
  | cons x tl ih =>
    intro acc
    simp only [List.foldl_cons]
    have h : (if p x then some (g (val x)) else acc.map g) =
        (if p x then some (val x) else acc).map g := by
      by_cases hp : p x <;> simp [hp]
    rw [h, ih]

/-- Looking a string up in the normalized dict is looking it up among the raw
entries (string-coerced keys, last match wins) and normalizing the value. -/
theorem lookupLastS_normalizeEntries (entries : List (PyKey × PyVal))
    (s : String) :
    lookupLastS (normalizeEntries entries) s =
      (lookupLast entries s).map normVal := by
  unfold lookupLastS normalizeEntries lookupLast
  rw [List.foldl_map]
  simpa using
    foldl_if_some_map (fun kv : PyKey × PyVal => pyKeyStr kv.1 == s)
      (fun kv => kv.2) normVal entries none

/-- The nested-dict analogue of `lookupLastS_normalizeEntries`: the inner
normalization coerces values with Python truthiness. -/
theorem lookupLastS_truthyEntries (des : List (PyKey × PyVal)) (s : String) :
    lookupLastS (des.map fun kv => (pyKeyStr kv.1, pyTruthy kv.2)) s =
      (lookupLast des s).map pyTruthy := by
  unfold lookupLastS lookupLast
  rw [List.foldl_map]
  simpa using
    foldl_if_some_map (fun kv : PyKey × PyVal => pyKeyStr kv.1 == s)
      (fun kv => kv.2) pyTruthy des none

/-- On a dict payload the *data* step of `get_availability_dict`
(`data = raw or {}`) is the identity. -/
theorem dataStep_dict (entries : List (PyKey × PyVal)) :
    (if pyTruthy (.pyDict entries) then PyVal.pyDict entries else .pyDict []) =
      .pyDict entries := by
  cases entries <;> rfl

end AvailabilityLemmas

/-- C5 (amended).  For a dict-typed availability payload the lookup never
raises and computes a direct two-level lookup: a missing day key (whether the
stored key is numeric or string-typed, both match by their string form, so
the lookup succeeds identically for both) yields `true`; a day-level value
that is not a dict yields `true`; a missing period key yields `true`; a
period-level value that is present is coerced with Python truthiness, so a
non-boolean inner value yields its truthiness (e.g. `0` yields `false`), not
`true` unconditionally as the original claim stated. -/
theorem c5_availability_lookup (parse : String → Option PyVal)
    (entries : List (PyKey × PyVal)) (day per : Nat) :
    is_available parse (.pyDict entries) day per =
      some (match lookupLast entries (toString day) with
        | some (.pyDict des) =>
          (match lookupLast des (toString per) with
           | some v => pyTruthy v
           | none => true)
        | some _ => true
        | none => true) := by
  unfold is_available get_availability_dict
  simp only [dataStep_dict]
  simp only [lookupLastS_normalizeEntries]
  cases h : lookupLast entries (toString day) with
  | none => rfl
  | some v =>
    cases v with
    | pyDict des =>
      cases hd : lookupLast des (toString per) <;>
        simp [normVal, lookupLastS_truthyEntries, hd]
    | pyNone => rfl
    | pyBool b => rfl
    | pyInt n => rfl
    | pyStr s => rfl
    | pyList xs => rfl

/-- C5 (counterexample).  The availability dict `{"0": {"0": 0}}` stores the
non-boolean inner value `0` for day 0, period 0, and the lookup returns
`false`, not the permissive default `true` claimed for non-boolean inner
values. -/
theorem c5_counterexample :
    is_available parseNone
        (.pyDict [(.kStr "0", .pyDict [(.kStr "0", .pyInt 0)])]) 0 0 =
      some false
    ∧ isPyBool (.pyInt 0) = false := by
  exact ⟨rfl, rfl⟩

/-- C10.  A stored availability value that is a string failing JSON parsing,
or an empty value (`None` or `{}`), makes `is_available` return `true` at
every (day, period): malformed availability is silently treated as fully
available, and no exception is raised. -/
theorem c10_malformed_availability (parse : String → Option PyVal)
    (raw : PyVal) (day per : Nat)
    (h : (∃ s, raw = .pyStr s ∧ parse s = none) ∨ raw = .pyNone
        ∨ raw = .pyDict []) :
    is_available parse raw day per = some true := by
  rcases h with ⟨s, hs, hp⟩ | h | h
  · subst hs
    simp [is_available, get_availability_dict, hp, pyTruthy, normalizeEntries,
      lookupLastS]
  · subst h; rfl
  · subst h; rfl

/-- C10 (witness): a concrete malformed payload is fully available. -/
theorem c10_witness :
    is_available parseNone (.pyStr "definitely not json") 3 5 = some true :=
  c10_malformed_availability parseNone (.pyStr "definitely not json") 3 5
    (Or.inl ⟨"definitely not json", rfl, rfl⟩)

/-! ## Solver data model (`timetable/models.py` entities, `solver.py` loading)

Entities carry the fields the solver reads; display-only fields are omitted.
-/

/-- Academic subject (`Subject`). -/
structure Subject where
  id : Nat
  weekly_periods : Nat
  subject_type : String
  difficulty : String
  requires_room_type : String
  requires_consecutive_periods : Bool

/-- Teacher (`Teacher`); availability is the raw JSON-like payload. -/
structure Teacher where
  id : Nat
  max_periods_week : Nat
  availability : PyVal

/-- Class group (`ClassGroup`). -/
structure ClassGroup where
  id : Nat
  student_count : Nat

/-- Physical room (`Room`). -/
structure Room where
  id : Nat
  room_type : String
  capacity : Nat
  availability : PyVal

/-- Weekly time slot (`TimeSlot`); start/end times are not read by the
solver's variable creation or constraints and are omitted here. -/
structure TimeSlot where
  id : Nat
  day_index : Nat
  period_index : Nat
deriving DecidableEq

/-- Teacher-subject allocation (`TeacherSubjectAllocation`), with its related
objects inlined as `select_related` does. -/
structure Allocation where
  id : Nat
  classgroup : ClassGroup
  subject : Subject
  teacher : Teacher

/-- The data loaded by `TimetableSolver.load_data`. -/
structure SolverData where
  timeslots : List TimeSlot
  classes : List ClassGroup
  teachers : List Teacher
  rooms : List Room
  subjects : List Subject
  allocations : List Allocation

/-- The boolean returned by a non-raising `is_available` call.  The
`.getD true` branch is unreachable whenever the lookup does not raise; the
theorems that rely on the value carry an `isSome` hypothesis for the payloads
involved, so the choice of default is immaterial to them. -/
def availD (parse : String → Option PyVal) (raw : PyVal) (d p : Nat) : Bool :=
  (is_available parse raw d p).getD true

/-- Lookup in a Python dict built by repeated assignment `cache[k] = v`:
the last assignment wins. -/
def lastFind {α : Type} (l : List α) (p : α → Bool) : Option α :=
  (l.filter p).getLast?

/-- Whether `(d, p)` is a key of the per-entity availability cache, i.e.
whether some loaded timeslot has that day and period. -/
def slotKeyPresent (tss : List TimeSlot) (d p : Nat) : Bool :=
  tss.any fun ts => ts.day_index == d && ts.period_index == p

/-- Shared shape of `teacher_avail_cache.get(id, {}).get((d, p), False)` and
`room_avail_cache.get(id, {}).get((d, p), False)` in `create_variables`:
a missing entity id or a missing slot key defaults to `False`. -/
def availCacheLookup {α : Type} (parse : String → Option PyVal)
    (idOf : α → Nat) (availOf : α → PyVal) (items : List α)
    (tss : List TimeSlot) (key d p : Nat) : Bool :=
  match lastFind items (fun x => idOf x == key) with
  | none => false
  | some x => if slotKeyPresent tss d p then availD parse (availOf x) d p else false

/-- The teacher availability cache lookup of `create_variables`. -/
def teacherCacheLookup (parse : String → Option PyVal) (teachers : List Teacher)
    (tss : List TimeSlot) (tid d p : Nat) : Bool :=
  availCacheLookup parse Teacher.id Teacher.availability teachers tss tid d p

/-- The room availability cache lookup of `create_variables`. -/
def roomCacheLookup (parse : String → Option PyVal) (rooms : List Room)
    (tss : List TimeSlot) (rid d p : Nat) : Bool :=
  availCacheLookup parse Room.id Room.availability rooms tss rid d p

/-- `rooms_by_type.get(t, [])`: the rooms of a given type, in load order. -/
def roomsOfType (rooms : List Room) (rt : String) : List Room :=
  rooms.filter fun r => r.room_type == rt

/-- Candidate rooms for a subject: rooms of the required type, falling back
to all rooms when none has that type. -/
def candidateRooms (rooms : List Room) (subj : Subject) : List Room :=
  if (roomsOfType rooms subj.requires_room_type).isEmpty then rooms
  else roomsOfType rooms subj.requires_room_type

/-- Key of a decision variable:
`(class_id, subject_id, teacher_id, room_id, timeslot_id, period_num)`. -/
structure VarKey where
  c : Nat
  s : Nat
  t : Nat
  r : Nat
  ts : Nat
  p : Nat
deriving DecidableEq

/-- `TimetableSolver.create_variables`: the keys for which a decision
variable is created.  A combination survives iff the cached teacher
availability is truthy, the cached room availability is truthy, and the room
capacity is not below the class size (`room.capacity < student_count`
prunes). -/
def createVariables (parse : String → Option PyVal) (d : SolverData) :
    List VarKey :=
  d.allocations.flatMap fun a =>
    let crooms := candidateRooms d.rooms a.subject
    (List.range a.subject.weekly_periods).flatMap fun p =>
      d.timeslots.flatMap fun ts =>
        if teacherCacheLookup parse d.teachers d.timeslots a.teacher.id
            ts.day_index ts.period_index then
          crooms.filterMap fun room =>
            if roomCacheLookup parse d.rooms d.timeslots room.id
                  ts.day_index ts.period_index
                && decide (a.classgroup.student_count ≤ room.capacity)
            then some ⟨a.classgroup.id, a.subject.id, a.teacher.id, room.id,
                  ts.id, p⟩
            else none
        else []

/-- Database invariants the ORM guarantees for the loaded snapshot: primary
keys are unique, and `(classgroup, subject, teacher)` is `unique_together`
on allocations. -/
def Wellformed (d : SolverData) : Prop :=
  (d.allocations.map fun a =>
      (a.classgroup.id, a.subject.id, a.teacher.id)).Nodup
  ∧ (d.rooms.map Room.id).Nodup
  ∧ (d.timeslots.map TimeSlot.id).Nodup

section KeyedLookupLemmas

variable {α : Type} {β : Type}

/-- With pairwise-distinct keys, filtering a list for one element's key
keeps exactly that element. -/
theorem filter_beq_key_eq [BEq β] [LawfulBEq β] (idOf : α → β) (l : List α)
    (h : (l.map idOf).Nodup) (a : α) (ha : a ∈ l) :
    l.filter (fun x => idOf x == idOf a) = [a] := by
  induction l with
  | nil => cases ha
  | cons b tl ih =>
    rw [List.map_cons, List.nodup_cons] at h
    rcases List.mem_cons.mp ha with rfl | hmem
    · have hnil : tl.filter (fun x => idOf x == idOf a) = [] := by
        rw [List.filter_eq_nil_iff]
        intro x hx hbeq
        exact h.1 (eq_of_beq hbeq ▸ List.mem_map_of_mem idOf hx)
      simp [List.filter_cons, hnil]
    · have hne : (idOf b == idOf a) = false := by
        rw [beq_eq_false_iff_ne]
        intro hEq
        exact h.1 (hEq ▸ List.mem_map_of_mem idOf hmem)
      simp [List.filter_cons, hne, ih h.2 hmem]

/-- With pairwise-distinct keys, the last-match lookup by an element's key
finds exactly that element. -/
theorem lastFind_key [BEq β] [LawfulBEq β] (idOf : α → β) (l : List α)
    (h : (l.map idOf).Nodup) (a : α) (ha : a ∈ l) :
    lastFind l (fun x => idOf x == idOf a) = some a := by
  rw [lastFind, filter_beq_key_eq idOf l h a ha]
  rfl

/-- With pairwise-distinct keys, equal keys of members force equal members. -/
theorem eq_of_key_eq [BEq β] [LawfulBEq β] (idOf : α → β) (l : List α)
    (h : (l.map idOf).Nodup) (a b : α) (ha : a ∈ l) (hb : b ∈ l)
    (hk : idOf a = idOf b) : a = b := by
  have h1 := filter_beq_key_eq idOf l h a ha
  have hb' : b ∈ l.filter (fun x => idOf x == idOf a) :=
    List.mem_filter.mpr ⟨hb, by simp [hk]⟩
  rw [h1] at hb'
  exact (List.mem_singleton.mp hb').symm

/-- Membership of a conditional list with empty alternative. -/
theorem mem_if_list (b : Bool) (l : List α) (x : α) :
    (x ∈ if b then l else []) ↔ (b = true ∧ x ∈ l) := by
  cases b <;> simp

/-- Equation of a conditional `some` with empty alternative. -/
theorem if_some_eq (b : Bool) (y x : α) :
    ((if b then some y else none) = some x) ↔ (b = true ∧ y = x) := by
  cases b <;> simp

end KeyedLookupLemmas

/-- A member of the candidate-room list is a loaded room. -/
theorem mem_rooms_of_mem_candidateRooms (rooms : List Room) (subj : Subject)
    (r : Room) (hr : r ∈ candidateRooms rooms subj) : r ∈ rooms := by
  unfold candidateRooms at hr
  split at hr
  · exact hr
  · exact List.mem_of_mem_filter hr

/-- Characterization of candidate-room membership for a loaded room: the room
has the required type, or no loaded room has it (fallback to all rooms). -/
theorem mem_candidateRooms (rooms : List Room) (subj : Subject) (room : Room)
    (hr : room ∈ rooms) :
    room ∈ candidateRooms rooms subj ↔
      (room.room_type = subj.requires_room_type
        ∨ ∀ r ∈ rooms, r.room_type ≠ subj.requires_room_type) := by
  unfold candidateRooms roomsOfType
  by_cases h : (rooms.filter fun r => r.room_type == subj.requires_room_type).isEmpty
  · simp only [h, if_pos]
    constructor
    · intro _
      right
      intro r hrm hEq
      have : r ∈ rooms.filter fun r => r.room_type == subj.requires_room_type :=
        List.mem_filter.mpr ⟨hrm, by simp [hEq]⟩
      rw [List.isEmpty_iff] at h
      simp [h] at this
    · intro _
      exact hr
  · simp only [h, if_neg, Bool.false_eq_true, not_false_iff, if_false]
    rw [List.mem_filter]
    constructor
    · rintro ⟨-, hbeq⟩
      exact Or.inl (by simpa using hbeq)
    · rintro (hEq | hall)
      · exact ⟨hr, by simp [hEq]⟩
      · exfalso
        rw [List.isEmpty_iff, List.filter_eq_nil_iff] at h
        exact h fun x hx hbeq => hall x hx (by simpa using hbeq)

/-- A non-raising availability value is `true` iff the lookup returns
`some true`. -/
theorem availD_eq_true_iff (parse : String → Option PyVal) (raw : PyVal)
    (d p : Nat) (h : (is_available parse raw d p).isSome = true) :
    availD parse raw d p = true ↔ is_available parse raw d p = some true := by
  rcases Option.isSome_iff_exists.mp h with ⟨b, hb⟩
  rw [availD, hb]
  cases b <;> simp

/-- A loaded timeslot's (day, period) pair is a key of the caches. -/
theorem slotKeyPresent_of_mem (tss : List TimeSlot) (ts : TimeSlot)
    (hts : ts ∈ tss) :
    slotKeyPresent tss ts.day_index ts.period_index = true := by
  rw [slotKeyPresent, List.any_eq_true]
  exact ⟨ts, hts, by simp⟩

/-- Membership characterization of the emitted variable keys. -/
theorem mem_createVariables (parse : String → Option PyVal) (d : SolverData)
    (k : VarKey) :
    k ∈ createVariables parse d ↔
      ∃ a ∈ d.allocations, ∃ p < a.subject.weekly_periods, ∃ ts ∈ d.timeslots,
        teacherCacheLookup parse d.teachers d.timeslots a.teacher.id
            ts.day_index ts.period_index = true
        ∧ ∃ room ∈ candidateRooms d.rooms a.subject,
            roomCacheLookup parse d.rooms d.timeslots room.id
                ts.day_index ts.period_index = true
            ∧ a.classgroup.student_count ≤ room.capacity
            ∧ k = ⟨a.classgroup.id, a.subject.id, a.teacher.id, room.id,
                ts.id, p⟩ := by
  simp only [createVariables, List.mem_flatMap, List.mem_range, mem_if_list,
    List.mem_filterMap, if_some_eq]
  constructor
  · rintro ⟨a, ha, p, hp, ts, hts, hT, room, hcr, hcond, hk⟩
    rw [Bool.and_eq_true, decide_eq_true_eq] at hcond
    exact ⟨a, ha, p, hp, ts, hts, hT, room, hcr, hcond.1, hcond.2, hk.symm⟩
  · rintro ⟨a, ha, p, hp, ts, hts, hT, room, hcr, hR, hcap, hk⟩
    refine ⟨a, ha, p, hp, ts, hts, hT, room, hcr, ?_, hk.symm⟩
    rw [Bool.and_eq_true, decide_eq_true_eq]
    exact ⟨hR, hcap⟩

/-- Rewriting an availability-cache lookup once the entity has been found. -/
theorem availCacheLookup_found {α : Type} (parse : String → Option PyVal)
    (idOf : α → Nat) (availOf : α → PyVal) (items : List α)
    (tss : List TimeSlot) (key d p : Nat) (x : α)
    (hfind : lastFind items (fun y => idOf y == key) = some x) :
    availCacheLookup parse idOf availOf items tss key d p =
      if slotKeyPresent tss d p then availD parse (availOf x) d p
      else false := by
  unfold availCacheLookup
  rw [hfind]

/-- C1.  For a well-formed loaded snapshot, a decision variable is created
for (allocation, period, slot, room) — with `p < subject.weekly_periods`,
the slot loaded and the room loaded — iff the teacher is available at the
slot, the room is available at the slot, the room capacity is at least the
class size, and the room is of the required type or no loaded room has that
type (the fallback keeps enumerating over all rooms rather than aborting).
The `lastFind` hypothesis states that the allocation's teacher is the loaded
teacher with its id (foreign-key integrity); the two `isSome` hypotheses
state that the availability payloads involved do not raise, which is the
only situation in which `create_variables` returns at all. -/
theorem c1_variable_created_iff (parse : String → Option PyVal)
    (d : SolverData) (a : Allocation) (p : Nat) (ts : TimeSlot) (room : Room)
    (ha : a ∈ d.allocations) (hp : p < a.subject.weekly_periods)
    (hts : ts ∈ d.timeslots) (hroom : room ∈ d.rooms)
    (hwf : Wellformed d)
    (hteach : lastFind d.teachers (fun t => t.id == a.teacher.id) =
      some a.teacher)
    (htOk : (is_available parse a.teacher.availability ts.day_index
      ts.period_index).isSome = true)
    (hrOk : (is_available parse room.availability ts.day_index
      ts.period_index).isSome = true) :
    (⟨a.classgroup.id, a.subject.id, a.teacher.id, room.id, ts.id, p⟩ : VarKey)
        ∈ createVariables parse d
      ↔ (is_available parse a.teacher.availability ts.day_index
            ts.period_index = some true
        ∧ is_available parse room.availability ts.day_index
            ts.period_index = some true
        ∧ a.classgroup.student_count ≤ room.capacity
        ∧ (room.room_type = a.subject.requires_room_type
          ∨ ∀ r ∈ d.rooms, r.room_type ≠ a.subject.requires_room_type)) := by
  obtain ⟨hwfA, hwfR, hwfT⟩ := hwf
  have hslot := slotKeyPresent_of_mem d.timeslots ts hts
  have hroomfind : lastFind d.rooms (fun x => x.id == room.id) = some room :=
    lastFind_key Room.id d.rooms hwfR room hroom
  constructor
  · intro hmem
    obtain ⟨a2, ha2, p2, hp2, ts2, hts2, hT, room2, hcr2, hR, hcap, hk⟩ :=
      (mem_createVariables parse d _).mp hmem
    simp only [VarKey.mk.injEq] at hk
    obtain ⟨hkc, hks, hkt, hkr, hkts, hkp⟩ := hk
    have ha2a : a2 = a := by
      refine eq_of_key_eq
        (fun x : Allocation => (x.classgroup.id, x.subject.id, x.teacher.id))
        d.allocations hwfA a2 a ha2 ha ?_
      simp [hkc, hks, hkt]
    subst a2
    have hts2ts : ts2 = ts :=
      eq_of_key_eq TimeSlot.id d.timeslots hwfT ts2 ts hts2 hts hkts.symm
    subst ts2
    have hroom2mem : room2 ∈ d.rooms :=
      mem_rooms_of_mem_candidateRooms d.rooms a.subject room2 hcr2
    have hroom2room : room2 = room :=
      eq_of_key_eq Room.id d.rooms hwfR room2 room hroom2mem hroom hkr.symm
    subst room2
    rw [teacherCacheLookup,
      availCacheLookup_found parse Teacher.id Teacher.availability d.teachers
        d.timeslots a.teacher.id ts.day_index ts.period_index a.teacher hteach,
      hslot, if_pos rfl] at hT
    rw [roomCacheLookup,
      availCacheLookup_found parse Room.id Room.availability d.rooms
        d.timeslots room.id ts.day_index ts.period_index room hroomfind,
      hslot, if_pos rfl] at hR
    exact ⟨(availD_eq_true_iff parse a.teacher.availability _ _ htOk).mp hT,
      (availD_eq_true_iff parse room.availability _ _ hrOk).mp hR,
      hcap,
      (mem_candidateRooms d.rooms a.subject room hroom).mp hcr2⟩
  · rintro ⟨h1, h2, h3, h4⟩
    refine (mem_createVariables parse d _).mpr
      ⟨a, ha, p, hp, ts, hts, ?_, room,
        (mem_candidateRooms d.rooms a.subject room hroom).mpr h4, ?_, h3, rfl⟩
    · rw [teacherCacheLookup,
        availCacheLookup_found parse Teacher.id Teacher.availability d.teachers
          d.timeslots a.teacher.id ts.day_index ts.period_index a.teacher
          hteach, hslot, if_pos rfl, availD, h1]
      rfl
    · rw [roomCacheLookup,
        availCacheLookup_found parse Room.id Room.availability d.rooms
          d.timeslots room.id ts.day_index ts.period_index room hroomfind,
        hslot, if_pos rfl, availD, h2]
      rfl

/-- Concrete snapshot for witnesses: one fully available teacher, class,
classroom and slot, one theory subject taught twice a week. -/
def tEx1 : Teacher := ⟨1, 25, .pyDict []⟩

/-- Witness room: a classroom with capacity 40. -/
def rEx1 : Room := ⟨1, "classroom", 40, .pyDict []⟩

/-- Witness class group with 30 students. -/
def cEx1 : ClassGroup := ⟨1, 30⟩

/-- Witness subject: theory, fair, classroom, two weekly periods. -/
def sEx1 : Subject := ⟨1, 2, "theory", "fair", "classroom", false⟩

/-- Witness time slot: Monday, period 0. -/
def tsEx1 : TimeSlot := ⟨1, 0, 0⟩

/-- Witness allocation tying the class, subject and teacher together. -/
def aEx1 : Allocation := ⟨1, cEx1, sEx1, tEx1⟩

/-- Witness solver snapshot. -/
def dEx1 : SolverData := ⟨[tsEx1], [cEx1], [tEx1], [rEx1], [sEx1], [aEx1]⟩

/-- C1 (witness): on the concrete snapshot the variable for the allocation at
period 0, the single slot and the single room is indeed created. -/
theorem c1_witness :
    (⟨1, 1, 1, 1, 1, 0⟩ : VarKey) ∈ createVariables parseNone dEx1 :=
  (c1_variable_created_iff parseNone dEx1 aEx1 0 tsEx1 rEx1
      (List.mem_singleton.mpr rfl)
      (by decide)
      (List.mem_singleton.mpr rfl)
      (List.mem_singleton.mpr rfl)
      ⟨by decide, by decide, by decide⟩
      rfl
      rfl
      rfl).mpr
    ⟨rfl, rfl, by decide, Or.inl rfl⟩

/-! ## Persistence of a successful solve (`save_solution`) -/

/-- One extracted solution tuple (`extract_solution` dict). -/
structure SolTuple where
  classgroup_id : Nat
  subject_id : Nat
  teacher_id : Nat
  room_id : Nat
  timeslot_id : Nat
  period_num : Nat

/-- A persisted `TimetableEntry` row as `save_solution` sees it (the
DB-assigned primary key plays no role in the solve-persistence claim and is
not modelled here). -/
structure TimetableEntryRow where
  teacher : Nat
  classgroup : Nat
  subject : Nat
  room : Nat
  timeslot : Nat
  is_locked : Bool

/-- The row inserted for one solution tuple: `is_locked=False`, and
`period_num` is not persisted. -/
def solutionEntry (e : SolTuple) : TimetableEntryRow :=
  ⟨e.teacher_id, e.classgroup_id, e.subject_id, e.room_id, e.timeslot_id,
    false⟩

/-- `TimetableSolver.save_solution`: inside one transaction, delete the rows
with `is_locked=False` and bulk-insert one non-locked row per solution
tuple.  The whole transaction is modelled as a single pure state
transformation of the entry table. -/
def save_solution (sol : List SolTuple) (db : List TimetableEntryRow) :
    List TimetableEntryRow :=
  db.filter (fun e => e.is_locked) ++ sol.map solutionEntry

/-- C2.  After a successful save, the locked rows are exactly the locked rows
from before the solve, unchanged and in order, and the non-locked rows are
exactly one `is_locked=false` row per extracted solution tuple — i.e. the
transaction deletes precisely the non-locked rows and inserts the solution. -/
theorem c2_persistence_frame (sol : List SolTuple)
    (db : List TimetableEntryRow) :
    (save_solution sol db).filter (fun e => e.is_locked) =
        db.filter (fun e => e.is_locked)
    ∧ (save_solution sol db).filter (fun e => !e.is_locked) =
        sol.map solutionEntry := by
  unfold save_solution
  constructor
  · rw [List.filter_append]
    have h1 : ((db.filter fun e => e.is_locked).filter fun e => e.is_locked) =
        db.filter fun e => e.is_locked := by
      rw [List.filter_filter]
      simp
    have h2 : ((sol.map solutionEntry).filter fun e => e.is_locked) = [] := by
      rw [List.filter_eq_nil_iff]
      intro e he
      rw [List.mem_map] at he
      obtain ⟨x, -, rfl⟩ := he
      simp [solutionEntry]
    rw [h1, h2, List.append_nil]
  · rw [List.filter_append]
    have h1 : ((db.filter fun e => e.is_locked).filter fun e => !e.is_locked) =
        [] := by
      rw [List.filter_eq_nil_iff]
      intro e he hcontra
      have := List.of_mem_filter he
      simp at hcontra
      rw [hcontra] at this
      cases this
    have h2 : ((sol.map solutionEntry).filter fun e => !e.is_locked) =
        sol.map solutionEntry := by
      rw [List.filter_eq_self]
      intro e he
      rw [List.mem_map] at he
      obtain ⟨x, -, rfl⟩ := he
      simp [solutionEntry]
    rw [h1, h2, List.nil_append]

/-! ## Time-slot generation (`generate_timeslots`) -/

/-- Global school configuration (`SchoolSettings`); times are minutes since
midnight.  The function below receives the configuration directly; the
`ValueError` raised when no configuration row exists is outside the claim. -/
structure SchoolSettings where
  days_per_week : Nat
  lesson_start_time : Nat
  lesson_duration_min : Nat
  periods_before_break : Nat
  break_duration_min : Nat
  periods_after_break : Nat
  lunch_duration_min : Nat

/-- A generated `TimeSlot` row. -/
structure TimeSlotRow where
  day_index : Nat
  period_index : Nat
  start_time : Nat
  end_time : Nat

/-- One run of back-to-back lessons: starting at period index `pIdx` and
time `t`, emit `n` slots of `dur` minutes, returning the rows, the next
period index and the next current time.  `datetime.combine ... .time()`
wraps at midnight, hence the `% 1440`. -/
def lessonRun (dur day : Nat) : Nat → Nat → Nat → List TimeSlotRow × Nat × Nat
  | 0, pIdx, t => ([], pIdx, t)
  | n + 1, pIdx, t =>
    let endT := (t + dur) % 1440
    let rest := lessonRun dur day n (pIdx + 1) endT
    (⟨day, pIdx, t, endT⟩ :: rest.1, rest.2.1, rest.2.2)

/-- The slots of one day: `periods_before_break` lessons, a short break,
then `periods_after_break` lessons.  The lunch added afterwards creates no
further slot (the day loop ends there). -/
def buildDaySlots (s : SchoolSettings) (day : Nat) : List TimeSlotRow :=
  let r1 := lessonRun s.lesson_duration_min day s.periods_before_break 0
    (s.lesson_start_time % 1440)
  let afterBreak := (r1.2.2 + s.break_duration_min) % 1440
  let r2 := lessonRun s.lesson_duration_min day s.periods_after_break r1.2.1
    afterBreak
  r1.1 ++ r2.1

/-- `generate_timeslots`: delete every existing `TimeSlot` row, then insert
the slots derived from the configuration for each working day. -/
def generate_timeslots (s : SchoolSettings) (_olddb : List TimeSlotRow) :
    List TimeSlotRow :=
  (List.range s.days_per_week).flatMap fun day => buildDaySlots s day

/-- C9.  Because the generator deletes all existing rows before inserting,
its output is independent of the prior table contents, and running it twice
with the same configuration yields exactly the same slots as running it
once. -/
theorem c9_generate_slots_idempotent (s : SchoolSettings)
    (db db2 : List TimeSlotRow) :
    generate_timeslots s db = generate_timeslots s db2
    ∧ generate_timeslots s (generate_timeslots s db) =
        generate_timeslots s db :=
  ⟨rfl, rfl⟩

/-! ## The emitted CP-SAT model

`add_hard_constraints` and `add_soft_constraints` are embedded as functions
producing a syntax of constraints over the model variables, together with a
satisfaction semantics over assignments `MVar → Nat`.  `vks` is the key list
of the `self.variables` dict (key-distinct for well-formed snapshots, as the
dict guarantees). -/

/-- Variables of the emitted model, identified the way the Python variable
names identify them. -/
inductive MVar where
  | asgn (c s t r ts p : Nat)
  | startv (alloc day start room : Nat)
  | hasBefore (t day i : Nat)
  | hasGap (t day i : Nat)
  | hasAfter (t day i : Nat)
  | gapExists (t day i : Nat)
  | allocated (alloc p : Nat)
  | dailyLoad (t day : Nat)
  | maxDaily (t : Nat)
deriving DecidableEq

/-- A boolean literal: the variable itself or its `Not()`. -/
inductive Lit where
  | pos (v : MVar)
  | neg (v : MVar)
deriving DecidableEq

/-- The constraint forms the solver emits. -/
inductive Cons where
  | sumEq (vs : List MVar) (n : Nat)
  | sumLe (vs : List MVar) (n : Nat)
  | sumGe1If (vs : List MVar) (l : Lit)
  | sumEq0If (vs : List MVar) (l : Lit)
  | boolAndIf (ls : List Lit) (l : Lit)
  | eqSum (v : MVar) (vs : List MVar)
  | maxEq (v : MVar) (vs : List MVar)
deriving DecidableEq

/-- Sum of assigned values over a variable list. -/
def sumVal (σ : MVar → Nat) (vs : List MVar) : Nat :=
  (vs.map σ).sum

/-- Satisfaction of a literal under an assignment (booleans are 0/1). -/
def litSat (σ : MVar → Nat) : Lit → Bool
  | .pos v => σ v == 1
  | .neg v => σ v == 0

/-- Satisfaction of one constraint (`OnlyEnforceIf` is half-reified: the
body is only required when the enforcement literal holds). -/
def consSat (σ : MVar → Nat) : Cons → Bool
  | .sumEq vs n => sumVal σ vs == n
  | .sumLe vs n => decide (sumVal σ vs ≤ n)
  | .sumGe1If vs l => !litSat σ l || decide (1 ≤ sumVal σ vs)
  | .sumEq0If vs l => !litSat σ l || (sumVal σ vs == 0)
  | .boolAndIf ls l => !litSat σ l || ls.all (litSat σ)
  | .eqSum v vs => σ v == sumVal σ vs
  | .maxEq v vs => σ v == (vs.map σ).foldr Nat.max 0

/-- The model variable of a decision-variable key. -/
def keyVar (k : VarKey) : MVar :=
  .asgn k.c k.s k.t k.r k.ts k.p

/-- Variables matching an allocation and period index (section 1 of
`add_hard_constraints`, and soft section 4). -/
def allocPeriodVars (vks : List VarKey) (a : Allocation) (p : Nat) :
    List MVar :=
  (vks.filter fun k => k.c == a.classgroup.id && k.s == a.subject.id
    && k.t == a.teacher.id && k.p == p).map keyVar

/-- Variables of one teacher at one timeslot. -/
def teacherSlotVars (vks : List VarKey) (tid tsid : Nat) : List MVar :=
  (vks.filter fun k => k.t == tid && k.ts == tsid).map keyVar

/-- Variables of one class at one timeslot. -/
def classSlotVars (vks : List VarKey) (cid tsid : Nat) : List MVar :=
  (vks.filter fun k => k.c == cid && k.ts == tsid).map keyVar

/-- Variables of one room at one timeslot. -/
def roomSlotVars (vks : List VarKey) (rid tsid : Nat) : List MVar :=
  (vks.filter fun k => k.r == rid && k.ts == tsid).map keyVar

/-- Constraint section 1: each required period scheduled exactly once, when
candidates exist (otherwise only a debug line is printed). -/
def h1Constraints (vks : List VarKey) (allocs : List Allocation) : List Cons :=
  allocs.flatMap fun a =>
    (List.range a.subject.weekly_periods).flatMap fun p =>
      if (allocPeriodVars vks a p).isEmpty then []
      else [Cons.sumEq (allocPeriodVars vks a p) 1]

/-- Constraint section 2: no teacher double-booking. -/
def h2Constraints (vks : List VarKey) (teachers : List Teacher)
    (tss : List TimeSlot) : List Cons :=
  teachers.flatMap fun t => tss.flatMap fun ts =>
    if (teacherSlotVars vks t.id ts.id).isEmpty then []
    else [Cons.sumLe (teacherSlotVars vks t.id ts.id) 1]

/-- Constraint section 3: no class double-booking. -/
def h3Constraints (vks : List VarKey) (classes : List ClassGroup)
    (tss : List TimeSlot) : List Cons :=
  classes.flatMap fun c => tss.flatMap fun ts =>
    if (classSlotVars vks c.id ts.id).isEmpty then []
    else [Cons.sumLe (classSlotVars vks c.id ts.id) 1]

/-- Constraint section 4: no room double-booking. -/
def h4Constraints (vks : List VarKey) (rooms : List Room)
    (tss : List TimeSlot) : List Cons :=
  rooms.flatMap fun r => tss.flatMap fun ts =>
    if (roomSlotVars vks r.id ts.id).isEmpty then []
    else [Cons.sumLe (roomSlotVars vks r.id ts.id) 1]

/-- The distinct day indices of the loaded slots, in first-occurrence order
(the Python code iterates the keys of a dict built in load order). -/
def dayKeys (tss : List TimeSlot) : List Nat :=
  tss.foldl
    (fun acc ts => if acc.contains ts.day_index then acc else acc ++ [ts.day_index])
    []

/-- Stable insertion into a period-sorted slot list. -/
def insertSlot (ts : TimeSlot) : List TimeSlot → List TimeSlot
  | [] => [ts]
  | u :: us =>
    if ts.period_index ≤ u.period_index then ts :: u :: us
    else u :: insertSlot ts us

/-- Sort slots by period index (`sorted(..., key=period_index)`). -/
def sortSlots (l : List TimeSlot) : List TimeSlot :=
  l.foldr insertSlot []

/-- The slots of one day, sorted by period index. -/
def slotsOfDay (tss : List TimeSlot) (day : Nat) : List TimeSlot :=
  sortSlots (tss.filter fun ts => ts.day_index == day)

/-- Insertion into a sorted list of naturals. -/
def insertNat (n : Nat) : List Nat → List Nat
  | [] => [n]
  | m :: ms => if n ≤ m then n :: m :: ms else m :: insertNat n ms

/-- Ascending sort of a list of naturals. -/
def sortNats (l : List Nat) : List Nat :=
  l.foldr insertNat []

/-- First-occurrence deduplication. -/
def dedupNats (l : List Nat) : List Nat :=
  l.foldl (fun acc n => if acc.contains n then acc else acc ++ [n]) []

/-- `sorted({r for (c,s,t,r,ts,p) in variables if (c,s,t) matches alloc})`:
the candidate room ids for an allocation's consecutive block. -/
def consecCandidateRooms (vks : List VarKey) (a : Allocation) : List Nat :=
  sortNats (dedupNats (vks.filterMap fun k =>
    if k.c == a.classgroup.id && k.s == a.subject.id && k.t == a.teacher.id
    then some k.r else none))

/-- The variables matching an exact (class, subject, teacher, room, slot,
period) combination. -/
def exactVars (vks : List VarKey) (a : Allocation) (rid tsid pidx : Nat) :
    List MVar :=
  (vks.filter fun k => k.c == a.classgroup.id && k.s == a.subject.id
    && k.t == a.teacher.id && k.r == rid && k.ts == tsid
    && k.p == pidx).map keyVar

/-- Consecutiveness check of a candidate slot sequence. -/
def okSeq (seq : List TimeSlot) : Bool :=
  (seq.zip seq.tail).all fun uv => uv.2.period_index == uv.1.period_index + 1

/-- `has_all`: every offset of the sequence has at least one candidate
variable in the given room. -/
def hasAllOffsets (vks : List VarKey) (a : Allocation) (rid : Nat)
    (seq : List TimeSlot) : Bool :=
  seq.enum.all fun pts => !(exactVars vks a rid pts.2.id pts.1).isEmpty

/-- One created start-room indicator with its placement data. -/
structure StartEntry where
  v : MVar
  day : Nat
  start : Nat
  room : Nat
  seq : List TimeSlot

/-- The `start_room_vars` built for one allocation requiring consecutive
periods. -/
def startRoomVars (vks : List VarKey) (tss : List TimeSlot) (a : Allocation) :
    List StartEntry :=
  (dayKeys tss).flatMap fun day =>
    if (slotsOfDay tss day).length < a.subject.weekly_periods then []
    else
      (List.range ((slotsOfDay tss day).length - a.subject.weekly_periods + 1)).flatMap
        fun i =>
          if okSeq (((slotsOfDay tss day).drop i).take a.subject.weekly_periods) then
            (consecCandidateRooms vks a).filterMap fun rid =>
              if hasAllOffsets vks a rid
                  (((slotsOfDay tss day).drop i).take a.subject.weekly_periods)
              then some ⟨.startv a.id day i rid, day, i, rid,
                ((slotsOfDay tss day).drop i).take a.subject.weekly_periods⟩
              else none
          else []

/-- The linking implications of one start-room indicator: for every offset,
if the start is chosen some matching assignment variable must be 1. -/
def startLinkCons (vks : List VarKey) (a : Allocation) (e : StartEntry) :
    List Cons :=
  e.seq.enum.flatMap fun pts =>
    if (exactVars vks a e.room pts.2.id pts.1).isEmpty then []
    else [Cons.sumGe1If (exactVars vks a e.room pts.2.id pts.1) (Lit.pos e.v)]

/-- Constraint section 5 for one allocation: skipped unless the subject
requires consecutive periods, has at least two weekly periods and has
candidate rooms; the final exactly-one constraint over the start indicators
is only emitted when at least one indicator was created. -/
def consecForAlloc (vks : List VarKey) (tss : List TimeSlot) (a : Allocation) :
    List Cons :=
  if !a.subject.requires_consecutive_periods then []
  else if a.subject.weekly_periods ≤ 1 then []
  else if (consecCandidateRooms vks a).isEmpty then []
  else
    ((startRoomVars vks tss a).flatMap fun e => startLinkCons vks a e)
      ++ (if (startRoomVars vks tss a).isEmpty then []
        else [Cons.sumEq ((startRoomVars vks tss a).map fun e => e.v) 1])

/-- `TimetableSolver.add_hard_constraints`: the emitted hard constraints. -/
def addHardConstraints (d : SolverData) (vks : List VarKey) : List Cons :=
  h1Constraints vks d.allocations
    ++ h2Constraints vks d.teachers d.timeslots
    ++ h3Constraints vks d.classes d.timeslots
    ++ h4Constraints vks d.rooms d.timeslots
    ++ (d.allocations.flatMap fun a => consecForAlloc vks d.timeslots a)

/-- What one emission step contributes to the model: declared variables with
their upper bounds (booleans have bound 1), constraints, and weighted
objective terms. -/
structure Emitted where
  bounds : List (MVar × Nat)
  cons : List Cons
  objective : List (MVar × Int)

/-- Concatenation of emissions. -/
def Emitted.append (x y : Emitted) : Emitted :=
  ⟨x.bounds ++ y.bounds, x.cons ++ y.cons, x.objective ++ y.objective⟩

/-- Concatenation of a list of emissions. -/
def joinEmitted (l : List Emitted) : Emitted :=
  l.foldr Emitted.append ⟨[], [], []⟩

/-- One 3-slot gap window of soft section 1: skipped when the teacher has no
candidate variable at the first or last slot; `has_before`/`has_gap`/
`has_after` are reified on both sides, while the gap indicator only gets the
one-sided `AddBoolAnd(...).OnlyEnforceIf(gap)` and weight +5. -/
def gapWindow (vks : List VarKey) (t : Teacher) (day i : Nat)
    (sBefore sGap sAfter : TimeSlot) : Emitted :=
  if (teacherSlotVars vks t.id sBefore.id).isEmpty
      || (teacherSlotVars vks t.id sAfter.id).isEmpty then ⟨[], [], []⟩
  else
    ⟨[(MVar.hasBefore t.id day i, 1), (MVar.hasGap t.id day i, 1),
      (MVar.hasAfter t.id day i, 1), (MVar.gapExists t.id day i, 1)],
     [Cons.sumGe1If (teacherSlotVars vks t.id sBefore.id)
        (.pos (MVar.hasBefore t.id day i)),
      Cons.sumEq0If (teacherSlotVars vks t.id sBefore.id)
        (.neg (MVar.hasBefore t.id day i)),
      Cons.sumGe1If (teacherSlotVars vks t.id sGap.id)
        (.pos (MVar.hasGap t.id day i)),
      Cons.sumEq0If (teacherSlotVars vks t.id sGap.id)
        (.neg (MVar.hasGap t.id day i)),
      Cons.sumGe1If (teacherSlotVars vks t.id sAfter.id)
        (.pos (MVar.hasAfter t.id day i)),
      Cons.sumEq0If (teacherSlotVars vks t.id sAfter.id)
        (.neg (MVar.hasAfter t.id day i)),
      Cons.boolAndIf
        [.pos (MVar.hasBefore t.id day i), .pos (MVar.hasAfter t.id day i),
         .neg (MVar.hasGap t.id day i)]
        (.pos (MVar.gapExists t.id day i))],
     [(MVar.gapExists t.id day i, 5)]⟩

/-- Soft section 1 (teacher gaps over 3-slot windows). -/
def softGapSection (vks : List VarKey) (d : SolverData) : Emitted :=
  joinEmitted (d.teachers.map fun t =>
    joinEmitted ((dayKeys d.timeslots).map fun day =>
      if (slotsOfDay d.timeslots day).length < 3 then ⟨[], [], []⟩
      else
        joinEmitted
          ((List.range ((slotsOfDay d.timeslots day).length - 2)).map fun i =>
            match (slotsOfDay d.timeslots day).drop i with
            | sb :: sg :: sa :: _ => gapWindow vks t day i sb sg sa
            | _ => ⟨[], [], []⟩)))

/-- Soft section 2: early-period bias of difficult subjects (objective terms
only; the teacher of the allocation is not part of the match). -/
def softDifficultSection (vks : List VarKey) (d : SolverData) : Emitted :=
  ⟨[], [],
    d.allocations.flatMap fun a =>
      if a.subject.difficulty == "difficult" then
        d.timeslots.flatMap fun ts =>
          if ts.period_index ≤ 1 then
            (vks.filter fun k => k.c == a.classgroup.id
              && k.s == a.subject.id && k.ts == ts.id).map
              fun k => (keyVar k, (-2 : Int))
          else []
      else []⟩

/-- Soft section 3 for one teacher: per-day load integers and their maximum,
weighted +1. -/
def softWorkloadTeacher (vks : List VarKey) (tss : List TimeSlot)
    (t : Teacher) : Emitted :=
  let dayLoads := (dayKeys tss).filterMap fun day =>
    if (tss.filter fun ts => ts.day_index == day).isEmpty then none
    else
      if ((tss.filter fun ts => ts.day_index == day).flatMap fun ts =>
          teacherSlotVars vks t.id ts.id).isEmpty then none
      else some (MVar.dailyLoad t.id day,
        (tss.filter fun ts => ts.day_index == day).length,
        (tss.filter fun ts => ts.day_index == day).flatMap fun ts =>
          teacherSlotVars vks t.id ts.id)
  if dayLoads.isEmpty then
    ⟨dayLoads.map fun dl => (dl.1, dl.2.1),
     dayLoads.map fun dl => Cons.eqSum dl.1 dl.2.2, []⟩
  else
    ⟨(dayLoads.map fun dl => (dl.1, dl.2.1)) ++ [(MVar.maxDaily t.id, 100)],
     (dayLoads.map fun dl => Cons.eqSum dl.1 dl.2.2)
       ++ [Cons.maxEq (MVar.maxDaily t.id) (dayLoads.map fun dl => dl.1)],
     [(MVar.maxDaily t.id, 1)]⟩

/-- Soft section 3 over all teachers. -/
def softWorkloadSection (vks : List VarKey) (d : SolverData) : Emitted :=
  joinEmitted (d.teachers.map (softWorkloadTeacher vks d.timeslots))

/-- Soft section 4: a two-sided reified presence indicator per (allocation,
period) with weight −50. -/
def softAllocPresence (vks : List VarKey) (d : SolverData) : Emitted :=
  joinEmitted (d.allocations.flatMap fun a =>
    (List.range a.subject.weekly_periods).map fun p =>
      if (allocPeriodVars vks a p).isEmpty then ⟨[], [], []⟩
      else
        ⟨[(MVar.allocated a.id p, 1)],
         [Cons.sumGe1If (allocPeriodVars vks a p) (.pos (MVar.allocated a.id p)),
          Cons.sumEq0If (allocPeriodVars vks a p) (.neg (MVar.allocated a.id p))],
         [(MVar.allocated a.id p, -50)]⟩)

/-- `TimetableSolver.add_soft_constraints`: all four soft sections. -/
def addSoftConstraints (d : SolverData) (vks : List VarKey) : Emitted :=
  Emitted.append (softGapSection vks d)
    (Emitted.append (softDifficultSection vks d)
      (Emitted.append (softWorkloadSection vks d) (softAllocPresence vks d)))

/-- Bounds of the start indicators created by constraint section 5. -/
def consecStartBounds (vks : List VarKey) (d : SolverData) :
    List (MVar × Nat) :=
  d.allocations.flatMap fun a =>
    if !a.subject.requires_consecutive_periods then []
    else if a.subject.weekly_periods ≤ 1 then []
    else if (consecCandidateRooms vks a).isEmpty then []
    else (startRoomVars vks d.timeslots a).map fun e => (e.v, 1)

/-- All declared model variables with their upper bounds. -/
def modelBounds (d : SolverData) (vks : List VarKey) : List (MVar × Nat) :=
  (vks.map fun k => (keyVar k, 1)) ++ consecStartBounds vks d
    ++ (addSoftConstraints d vks).bounds

/-- All emitted constraints, hard then soft. -/
def modelCons (d : SolverData) (vks : List VarKey) : List Cons :=
  addHardConstraints d vks ++ (addSoftConstraints d vks).cons

/-- Value of the minimized objective under an assignment. -/
def objectiveValue (terms : List (MVar × Int)) (σ : MVar → Nat) : Int :=
  (terms.map fun p => p.2 * (σ p.1 : Int)).sum

/-! ## Solve driver (`solve`), extraction and conflict reporting -/

/-- Terminal CP-SAT statuses. -/
inductive Status where
  | optimal
  | feasible
  | infeasible
  | unknown
  | modelInvalid
deriving DecidableEq

/-- The success test `status in [cp_model.OPTIMAL, cp_model.FEASIBLE]`. -/
def statusSuccess : Status → Bool
  | .optimal => true
  | .feasible => true
  | _ => false

/-- `extract_solution`: the keys whose variable resolved to 1 (a value that
cannot be retrieved counts as 0, which the total function `val` absorbs). -/
def extractSolution (vks : List VarKey) (val : VarKey → Nat) : List VarKey :=
  vks.filter fun k => val k == 1

/-- Solver engine parameters set by `solve` (`self.solver.parameters`). -/
structure CpSolverParams where
  max_time_in_seconds : Nat
  log_search_progress : Bool
  num_search_workers : Nat
  random_seed : Nat
deriving DecidableEq

/-- The parameter block configured at the top of `solve`. -/
def configureSolverParams (time_limit_seconds : Nat) : CpSolverParams :=
  ⟨time_limit_seconds, true, 8, 0⟩

/-- The Python default argument of `solve` (`time_limit_seconds=300`). -/
def solveDefaultTimeLimit : Nat := 300

/-- C7 (counterexample).  Calling `solve` without an explicit time limit
configures a wall-clock limit of 300 seconds, not the 180 seconds the claim
states. -/
theorem c7_counterexample :
    (configureSolverParams solveDefaultTimeLimit).max_time_in_seconds ≠ 180 := by
  decide

/-- C7 (amended).  Without an explicit argument the configured wall-clock
limit is 300 seconds; in every call progress logging is enabled, 8 search
workers are requested and the random seed is 0. -/
theorem c7_solver_parameters :
    configureSolverParams solveDefaultTimeLimit =
      ⟨300, true, 8, 0⟩ := rfl

/-- The number of candidate variables of an allocation (`cnt` in
`create_variables` and `generate_conflict_report`). -/
def countCandidates (vks : List VarKey) (a : Allocation) : Nat :=
  (vks.filter fun k => k.c == a.classgroup.id && k.s == a.subject.id
    && k.t == a.teacher.id).length

/-- Rows of `ConflictReport` as structured data (human-readable message
texts are represented by the constructor; details keep the ids). -/
inductive Report where
  | unknownWarning
  | infeasibleError
  | noCandidateAlloc (classId subjectId teacherId : Nat)
      (required_room_type : String)
  | noRoomOfType (subjectId : Nat) (required_type : String)
  | teacherOverallocated (teacherId required available : Nat)
  | classOverload (classId required available : Nat)
  | genericNoConflict (isUnknown : Bool)
deriving DecidableEq

/-- Severity attached to each report row. -/
def Report.severity : Report → String
  | .unknownWarning => "warning"
  | .infeasibleError => "error"
  | .noCandidateAlloc _ _ _ _ => "error"
  | .noRoomOfType _ _ => "error"
  | .teacherOverallocated _ _ _ => "error"
  | .classOverload _ _ _ => "error"
  | .genericNoConflict w => if w then "warning" else "error"

/-- Rows for the terminal status (UNKNOWN warning, INFEASIBLE error). -/
def statusReports (status : Status) : List Report :=
  (if status == Status.unknown then [Report.unknownWarning] else [])
    ++ (if status == Status.infeasible then [Report.infeasibleError] else [])

/-- One error row per allocation with zero candidate variables. -/
def missingReports (vks : List VarKey) (allocs : List Allocation) :
    List Report :=
  (allocs.filter fun a => countCandidates vks a == 0).map fun a =>
    Report.noCandidateAlloc a.classgroup.id a.subject.id a.teacher.id
      a.subject.requires_room_type

/-- One error row per subject whose required room type has no room. -/
def roomTypeReports (d : SolverData) : List Report :=
  d.subjects.flatMap fun s =>
    if s.requires_room_type != ""
        && (d.rooms.filter fun r => r.room_type == s.requires_room_type).isEmpty
    then [Report.noRoomOfType s.id s.requires_room_type]
    else []

/-- One error row per teacher whose required periods exceed the slots where
the teacher is available (availability re-evaluated per slot). -/
def teacherOverloadReports (parse : String → Option PyVal) (d : SolverData) :
    List Report :=
  d.teachers.flatMap fun t =>
    if (d.timeslots.filter fun ts =>
          availD parse t.availability ts.day_index ts.period_index).length
        < ((d.allocations.filter fun a => a.teacher.id == t.id).map
            fun a => a.subject.weekly_periods).sum
    then [Report.teacherOverallocated t.id
      (((d.allocations.filter fun a => a.teacher.id == t.id).map
        fun a => a.subject.weekly_periods).sum)
      ((d.timeslots.filter fun ts =>
        availD parse t.availability ts.day_index ts.period_index).length)]
    else []

/-- One error row per class requiring more periods than there are slots. -/
def classOverloadReports (d : SolverData) : List Report :=
  d.classes.flatMap fun c =>
    if d.timeslots.length
        < ((d.allocations.filter fun a => a.classgroup.id == c.id).map
            fun a => a.subject.weekly_periods).sum
    then [Report.classOverload c.id
      (((d.allocations.filter fun a => a.classgroup.id == c.id).map
        fun a => a.subject.weekly_periods).sum)
      d.timeslots.length]
    else []

/-- `generate_conflict_report`: replaces all prior rows with the produced
list; a generic fallback row is appended only when nothing else was produced
and the solve did not succeed. -/
def generateConflictReport (parse : String → Option PyVal) (d : SolverData)
    (vks : List VarKey) (status : Status) : List Report :=
  let base := statusReports status ++ missingReports vks d.allocations
    ++ roomTypeReports d ++ teacherOverloadReports parse d
    ++ classOverloadReports d
  if base.isEmpty && !statusSuccess status then
    base ++ [Report.genericNoConflict (status == Status.unknown)]
  else base

/-- The branch structure at the end of `solve`: on OPTIMAL or FEASIBLE the
solution is extracted and returned and the conflict reporter is *not*
invoked (`none` in the second component); on any other status no solution is
returned and the reporter runs. -/
def solveOutcome (parse : String → Option PyVal) (d : SolverData)
    (vks : List VarKey) (status : Status) (val : VarKey → Nat) :
    Option (List VarKey) × Option (List Report) :=
  if statusSuccess status then (some (extractSolution vks val), none)
  else (none, some (generateConflictReport parse d vks status))

/-- C6 (amended).  The conflict reporter is invoked exactly on non-success
statuses: on OPTIMAL or FEASIBLE it never runs, even when some allocation
has zero candidate tuples; on any other status it runs and emits one error
row, carrying class, subject, teacher and required room type, for every
allocation with zero candidates. -/
theorem c6_reporter_invocation (parse : String → Option PyVal)
    (d : SolverData) (vks : List VarKey) (status : Status)
    (val : VarKey → Nat) :
    (statusSuccess status = true →
      (solveOutcome parse d vks status val).2 = none)
    ∧ (statusSuccess status = false →
      (solveOutcome parse d vks status val).2 =
          some (generateConflictReport parse d vks status)
      ∧ ∀ a ∈ d.allocations, countCandidates vks a = 0 →
          Report.noCandidateAlloc a.classgroup.id a.subject.id a.teacher.id
              a.subject.requires_room_type
            ∈ generateConflictReport parse d vks status
          ∧ (Report.noCandidateAlloc a.classgroup.id a.subject.id a.teacher.id
              a.subject.requires_room_type).severity = "error") := by
  constructor
  · intro hs
    simp [solveOutcome, hs]
  · intro hs
    constructor
    · simp [solveOutcome, hs]
    · intro a ha hcnt
      have hmem : Report.noCandidateAlloc a.classgroup.id a.subject.id
          a.teacher.id a.subject.requires_room_type
            ∈ missingReports vks d.allocations := by
        rw [missingReports, List.mem_map]
        exact ⟨a, List.mem_filter.mpr ⟨ha, by simp [hcnt]⟩, rfl⟩
      have hbase : Report.noCandidateAlloc a.classgroup.id a.subject.id
          a.teacher.id a.subject.requires_room_type
            ∈ statusReports status ++ missingReports vks d.allocations
              ++ roomTypeReports d ++ teacherOverloadReports parse d
              ++ classOverloadReports d := by
        simp only [List.mem_append]
        exact Or.inl (Or.inl (Or.inl (Or.inr hmem)))
      refine ⟨?_, rfl⟩
      cases hempty : (statusReports status ++ missingReports vks d.allocations
          ++ roomTypeReports d ++ teacherOverloadReports parse d
          ++ classOverloadReports d).isEmpty with
      | true =>
        rw [List.isEmpty_iff] at hempty
        rw [hempty] at hbase
        cases hbase
      | false =>
        simp only [generateConflictReport, hempty, Bool.false_and,
          Bool.false_eq_true, if_false]
        exact hbase

/-- A teacher unavailable at the only loaded slot (day 0, period 0). -/
def tEx6 : Teacher := ⟨1, 25, .pyDict [(.kStr "0", .pyDict [(.kStr "0", .pyBool false)])]⟩

/-- Allocation whose teacher never fits: zero candidate variables. -/
def aEx6 : Allocation := ⟨1, cEx1, sEx1, tEx6⟩

/-- Snapshot with a structurally infeasible allocation. -/
def dEx6 : SolverData := ⟨[tsEx1], [cEx1], [tEx6], [rEx1], [sEx1], [aEx6]⟩

/-- The (empty) variable key list of that snapshot. -/
def varsEx6 : List VarKey := createVariables parseNone dEx6

/-- An assignment retrieval where no variable is 1. -/
def valZero : VarKey → Nat := fun _ => 0

/-- C6 (counterexample).  On a snapshot where the only allocation has zero
candidate tuples, a solve whose engine status is FEASIBLE does not invoke
the conflict reporter at all (second component `none`): no error
ConflictReport row is produced, contradicting the claim. -/
theorem c6_counterexample :
    countCandidates varsEx6 aEx6 = 0
    ∧ (solveOutcome parseNone dEx6 varsEx6 Status.feasible valZero).2 =
        none :=
  ⟨rfl, rfl⟩

/-- C6 (witness): on a non-success status the reporter does run and contains
the zero-candidate error row for the flagged allocation. -/
theorem c6_witness :
    Report.noCandidateAlloc 1 1 1 "classroom"
      ∈ generateConflictReport parseNone dEx6 varsEx6 Status.infeasible :=
  (((c6_reporter_invocation parseNone dEx6 varsEx6 Status.infeasible
      valZero).2 rfl).2 aEx6 (List.mem_singleton.mpr rfl) rfl).1

/-- Every exactly-one constraint in the emitted hard-constraint list ranges
over a non-empty variable list: both section 1 and section 5 guard the
emission on non-emptiness. -/
theorem sumEq_nonempty_of_mem_addHard (d : SolverData) (vks : List VarKey)
    (vs : List MVar) (n : Nat)
    (h : Cons.sumEq vs n ∈ addHardConstraints d vks) : vs ≠ [] := by
  intro hnil
  subst hnil
  rw [addHardConstraints] at h
  simp only [List.mem_append, h1Constraints, h2Constraints, h3Constraints,
    h4Constraints, List.mem_flatMap] at h
  rcases h with ((((⟨a, -, p, -, h⟩ | ⟨t, -, ts, -, h⟩) | ⟨c, -, ts, -, h⟩)
      | ⟨r, -, ts, -, h⟩) | ⟨a, -, h⟩)
  · split at h
    · exact absurd h (List.not_mem_nil _)
    · rw [List.mem_singleton] at h
      rename_i hg
      injection h with h1 h2
      apply hg
      rw [← h1]
      rfl
  · split at h
    · exact absurd h (List.not_mem_nil _)
    · rw [List.mem_singleton] at h
      exact Cons.noConfusion h
  · split at h
    · exact absurd h (List.not_mem_nil _)
    · rw [List.mem_singleton] at h
      exact Cons.noConfusion h
  · split at h
    · exact absurd h (List.not_mem_nil _)
    · rw [List.mem_singleton] at h
      exact Cons.noConfusion h
  · rw [consecForAlloc] at h
    split at h
    · exact absurd h (List.not_mem_nil _)
    · split at h
      · exact absurd h (List.not_mem_nil _)
      · split at h
        · exact absurd h (List.not_mem_nil _)
        · rw [List.mem_append] at h
          rcases h with h | h
          · simp only [List.mem_flatMap] at h
            obtain ⟨e, -, h⟩ := h
            rw [startLinkCons] at h
            simp only [List.mem_flatMap] at h
            obtain ⟨pts, -, h⟩ := h
            split at h
            · exact absurd h (List.not_mem_nil _)
            · rw [List.mem_singleton] at h
              exact Cons.noConfusion h
          · split at h
            · exact absurd h (List.not_mem_nil _)
            · rw [List.mem_singleton] at h
              rename_i hg
              injection h with h1 h2
              apply hg
              rw [List.isEmpty_iff]
              exact List.map_eq_nil_iff.mp h1.symm

/-- On an allocation passing all three guards, constraint section 5 reduces
to the link implications plus the guarded exactly-one constraint. -/
theorem consecForAlloc_active (vks : List VarKey) (tss : List TimeSlot)
    (a : Allocation)
    (hreq : a.subject.requires_consecutive_periods = true)
    (hw : ¬(a.subject.weekly_periods ≤ 1))
    (hcand : (consecCandidateRooms vks a).isEmpty = false) :
    consecForAlloc vks tss a =
      ((startRoomVars vks tss a).flatMap fun e => startLinkCons vks a e)
        ++ (if (startRoomVars vks tss a).isEmpty then []
          else [Cons.sumEq ((startRoomVars vks tss a).map fun e => e.v) 1]) := by
  rw [consecForAlloc]
  simp [hreq, hw, hcand]

/-- C3 (amended).  For an allocation with `requires_consecutive_periods`,
`weekly_periods ≥ 2` and non-empty candidate rooms: when at least one valid
start indicator exists, the model builder adds the exactly-one constraint
over all the allocation's start indicators; when the set of valid start
indicators is empty it adds no such constraint at all — the consecutive
requirement is silently dropped (with a debug diagnostic) rather than making
the model infeasible. -/
theorem c3_consecutive_sum_emitted (d : SolverData) (vks : List VarKey)
    (a : Allocation) (ha : a ∈ d.allocations)
    (hreq : a.subject.requires_consecutive_periods = true)
    (hk : 2 ≤ a.subject.weekly_periods)
    (hcand : (consecCandidateRooms vks a).isEmpty = false) :
    (startRoomVars vks d.timeslots a ≠ [] →
      Cons.sumEq ((startRoomVars vks d.timeslots a).map fun e => e.v) 1
        ∈ addHardConstraints d vks)
    ∧ (startRoomVars vks d.timeslots a = [] →
      Cons.sumEq ((startRoomVars vks d.timeslots a).map fun e => e.v) 1
        ∉ addHardConstraints d vks) := by
  have hw : ¬(a.subject.weekly_periods ≤ 1) := by omega
  constructor
  · intro hne
    rw [addHardConstraints]
    simp only [List.mem_append]
    refine Or.inr ?_
    rw [List.mem_flatMap]
    refine ⟨a, ha, ?_⟩
    rw [consecForAlloc_active vks d.timeslots a hreq hw hcand]
    rw [List.mem_append]
    right
    have hie : (startRoomVars vks d.timeslots a).isEmpty = false := by
      cases hh : (startRoomVars vks d.timeslots a).isEmpty
      · rfl
      · rw [List.isEmpty_iff] at hh
        exact absurd hh hne
    rw [hie]
    simp
  · intro hnil
    rw [hnil]
    simp only [List.map_nil]
    intro hmem
    exact sumEq_nonempty_of_mem_addHard d vks [] 1 hmem rfl

/-- Subject requiring a consecutive double period. -/
def sEx3 : Subject := ⟨1, 2, "theory", "fair", "classroom", true⟩

/-- Allocation of the consecutive subject. -/
def aEx3 : Allocation := ⟨1, cEx1, sEx3, tEx1⟩

/-- Two loaded slots on two different days (one period per day): candidate
variables exist but no two consecutive slots share a day. -/
def tsEx3b : TimeSlot := ⟨2, 1, 0⟩

/-- Snapshot where the consecutive block has nowhere to start. -/
def dEx3 : SolverData := ⟨[tsEx1, tsEx3b], [cEx1], [tEx1], [rEx1], [sEx3], [aEx3]⟩

/-- Its variable keys (non-empty: both slots accept the allocation). -/
def varsEx3 : List VarKey := createVariables parseNone dEx3

/-- C3 (counterexample).  A consecutive-periods allocation with k = 2,
non-empty candidate rooms, but no valid (day, start, room) triple: the set
of start indicators is empty and the emitted hard constraints contain no
exactly-one constraint over it (which would be `sum [] = 1`) — the model is
left satisfiable instead of infeasible, contradicting the claim. -/
theorem c3_counterexample :
    aEx3.subject.requires_consecutive_periods = true
    ∧ 2 ≤ aEx3.subject.weekly_periods
    ∧ (consecCandidateRooms varsEx3 aEx3).isEmpty = false
    ∧ startRoomVars varsEx3 dEx3.timeslots aEx3 = []
    ∧ Cons.sumEq [] 1 ∉ addHardConstraints dEx3 varsEx3 := by
  refine ⟨rfl, by decide, rfl, rfl, by decide⟩

/-- C3 (witness): the amended theorem applied to the concrete snapshot. -/
theorem c3_witness :
    (startRoomVars varsEx3 dEx3.timeslots aEx3 ≠ [] →
      Cons.sumEq ((startRoomVars varsEx3 dEx3.timeslots aEx3).map fun e => e.v) 1
        ∈ addHardConstraints dEx3 varsEx3)
    ∧ (startRoomVars varsEx3 dEx3.timeslots aEx3 = [] →
      Cons.sumEq ((startRoomVars varsEx3 dEx3.timeslots aEx3).map fun e => e.v) 1
        ∉ addHardConstraints dEx3 varsEx3) :=
  c3_consecutive_sum_emitted dEx3 varsEx3 aEx3 (List.mem_cons_self aEx3 [])
    rfl (by decide) rfl

/-- Second and third slots of a three-period Monday. -/
def tsEx4b : TimeSlot := ⟨2, 0, 1⟩

/-- Third slot (period 2) of the Monday. -/
def tsEx4c : TimeSlot := ⟨3, 0, 2⟩

/-- Snapshot for the gap-penalty analysis: one teacher, one class, one room,
one two-period subject, three slots on one day. -/
def dEx4 : SolverData :=
  ⟨[tsEx1, tsEx4b, tsEx4c], [cEx1], [tEx1], [rEx1], [sEx1], [aEx1]⟩

/-- Its decision-variable keys (2 periods × 3 slots × 1 room). -/
def varsEx4 : List VarKey := createVariables parseNone dEx4

/-- An assignment placing the two lessons at periods 0 and 2 — a gap at
period 1 — with the gap indicator set to 0. -/
def sigmaEx4 : MVar → Nat
  | .asgn 1 1 1 1 1 0 => 1
  | .asgn 1 1 1 1 3 1 => 1
  | .hasBefore 1 0 0 => 1
  | .hasAfter 1 0 0 => 1
  | .allocated 1 0 => 1
  | .allocated 1 1 => 1
  | .dailyLoad 1 0 => 2
  | .maxDaily 1 => 2
  | _ => 0

/-- C4.  The emitted model only half-reifies the gap indicator
(`AddBoolAnd([...]).OnlyEnforceIf(gap_bool)`, with no converse), so the
assignment `sigmaEx4` satisfies **every** emitted constraint within all
variable domains, schedules the teacher at periods 0 and 2 of the day but
not at period 1, and still sets the gap indicator to 0, making every
+5-weighted objective term vanish.  This contradicts the claim (and the
code's own comment `gap_bool == (has_before AND NOT has_gap AND
has_after)`): a satisfying assignment with a gap need not incur the +5
penalty, so minimization always zeroes the penalty. -/
theorem c4_gap_penalty_not_enforced :
    (modelCons dEx4 varsEx4).all (consSat sigmaEx4) = true
    ∧ (modelBounds dEx4 varsEx4).all
        (fun vb => decide (sigmaEx4 vb.1 ≤ vb.2)) = true
    ∧ sumVal sigmaEx4 (teacherSlotVars varsEx4 1 1) = 1
    ∧ sumVal sigmaEx4 (teacherSlotVars varsEx4 1 2) = 0
    ∧ sumVal sigmaEx4 (teacherSlotVars varsEx4 1 3) = 1
    ∧ sigmaEx4 (MVar.gapExists 1 0 0) = 0
    ∧ ((addSoftConstraints dEx4 varsEx4).objective.filter
        fun p => p.2 == 5).all (fun p => sigmaEx4 p.1 == 0) = true :=
  ⟨rfl, rfl, rfl, rfl, rfl, rfl, rfl⟩

/-! ## Manual edit validation (`views.update_entry`) -/

/-- A persisted `TimetableEntry` row as the view sees it (with primary key;
foreign keys by id). -/
structure EntryRow where
  id : Nat
  teacher : Nat
  classgroup : Nat
  subject : Nat
  room : Nat
  timeslot : Nat
  is_locked : Bool
deriving DecidableEq

/-- The tables the view reads. -/
structure ViewDB where
  entries : List EntryRow
  timeslots : List TimeSlot
  rooms : List Room
  teachers : List Teacher
  classes : List ClassGroup
  subjects : List Subject

/-- The validation error messages, as tags (the human-readable text carries
no further data beyond the entities already in scope). -/
inductive ErrMsg where
  | teacherUnavailable
  | roomUnavailable
  | teacherDoubleBooked
  | classDoubleBooked
  | roomDoubleBooked
  | roomTooSmall
  | roomTypeMismatch
deriving DecidableEq

/-- Outcome of the endpoint: a 500 response (any raised exception), a 400
response with the error list, or a 200 after the write. -/
inductive UpdateResult where
  | serverError
  | rejected (errors : List ErrMsg)
  | ok
deriving DecidableEq

/-- `new_room = Room.objects.get(id=new_room_id) if new_room_id else
entry.room`: Python truthiness makes id 0 fall back to the entry's room. -/
def resolveRoom (db : ViewDB) (entry : EntryRow) (room_id : Option Nat) :
    Option Room :=
  if room_id.getD 0 != 0 then db.rooms.find? fun r => r.id == room_id.getD 0
  else db.rooms.find? fun r => r.id == entry.room

/-- The error list accumulated by the seven validation checks, in source
order. -/
def validationErrors (db : ViewDB) (entry : EntryRow) (new_room : Room)
    (cls : ClassGroup) (subj : Subject) (timeslot_id : Nat)
    (tAv rAv : Bool) : List ErrMsg :=
  (if tAv then [] else [ErrMsg.teacherUnavailable])
    ++ (if rAv then [] else [ErrMsg.roomUnavailable])
    ++ (if db.entries.any fun o => o.teacher == entry.teacher
          && o.timeslot == timeslot_id && o.id != entry.id
        then [ErrMsg.teacherDoubleBooked] else [])
    ++ (if db.entries.any fun o => o.classgroup == entry.classgroup
          && o.timeslot == timeslot_id && o.id != entry.id
        then [ErrMsg.classDoubleBooked] else [])
    ++ (if db.entries.any fun o => o.room == new_room.id
          && o.timeslot == timeslot_id && o.id != entry.id
        then [ErrMsg.roomDoubleBooked] else [])
    ++ (if new_room.capacity < cls.student_count
        then [ErrMsg.roomTooSmall] else [])
    ++ (if new_room.room_type != subj.requires_room_type
        then [ErrMsg.roomTypeMismatch] else [])

/-- `update_entry`: resolve the entry, the new timeslot and room and the
related objects (any failed lookup or raised availability lookup is the
generic exception handler, a 500 with no write); validate; on any error
return 400 with the list and no write; otherwise update the entry's timeslot
and room. -/
def update_entry (parse : String → Option PyVal) (db : ViewDB)
    (entry_id timeslot_id : Nat) (room_id : Option Nat) :
    UpdateResult × List EntryRow :=
  match db.entries.find? (fun e => e.id == entry_id) with
  | none => (.serverError, db.entries)
  | some entry =>
    match db.timeslots.find? (fun ts => ts.id == timeslot_id) with
    | none => (.serverError, db.entries)
    | some new_ts =>
      match resolveRoom db entry room_id with
      | none => (.serverError, db.entries)
      | some new_room =>
        match db.teachers.find? (fun t => t.id == entry.teacher) with
        | none => (.serverError, db.entries)
        | some teacher =>
          match db.classes.find? (fun c => c.id == entry.classgroup) with
          | none => (.serverError, db.entries)
          | some cls =>
            match db.subjects.find? (fun s => s.id == entry.subject) with
            | none => (.serverError, db.entries)
            | some subj =>
              match is_available parse teacher.availability new_ts.day_index
                  new_ts.period_index,
                is_available parse new_room.availability new_ts.day_index
                  new_ts.period_index with
              | some tAv, some rAv =>
                if (validationErrors db entry new_room cls subj timeslot_id
                    tAv rAv).isEmpty then
                  (.ok, db.entries.map fun o =>
                    if o.id == entry_id then
                      ⟨o.id, o.teacher, o.classgroup, o.subject, new_room.id,
                        new_ts.id, o.is_locked⟩
                    else o)
                else
                  (.rejected (validationErrors db entry new_room cls subj
                    timeslot_id tAv rAv), db.entries)
              | _, _ => (.serverError, db.entries)

/-- When another entry of the same teacher occupies the target slot, the
double-booking message is accumulated. -/
theorem teacherDouble_mem_validationErrors (db : ViewDB) (entry : EntryRow)
    (new_room : Room) (cls : ClassGroup) (subj : Subject)
    (timeslot_id : Nat) (tAv rAv : Bool)
    (hdouble : db.entries.any (fun o => o.teacher == entry.teacher
      && o.timeslot == timeslot_id && o.id != entry.id) = true) :
    ErrMsg.teacherDoubleBooked ∈
      validationErrors db entry new_room cls subj timeslot_id tAv rAv := by
  rw [validationErrors]
  simp [hdouble]

/-- C8.  A validation call that moves an existing entry to a timeslot where
its teacher already has another entry (any other row of the same teacher at
that slot) returns a rejected result whose non-empty error list contains the
teacher-double-booking message, and the entry table is returned unchanged —
no write happens.  The hypotheses say the looked-up objects exist and the
two availability lookups return (any values): otherwise the endpoint
answers 500, also without writing. -/
theorem c8_manual_edit_rejection (parse : String → Option PyVal)
    (db : ViewDB) (entry_id timeslot_id : Nat) (room_id : Option Nat)
    (entry : EntryRow) (new_ts : TimeSlot) (new_room : Room)
    (teacher : Teacher) (cls : ClassGroup) (subj : Subject) (tAv rAv : Bool)
    (h1 : db.entries.find? (fun e => e.id == entry_id) = some entry)
    (h2 : db.timeslots.find? (fun ts => ts.id == timeslot_id) = some new_ts)
    (h3 : resolveRoom db entry room_id = some new_room)
    (h4 : db.teachers.find? (fun t => t.id == entry.teacher) = some teacher)
    (h5 : db.classes.find? (fun c => c.id == entry.classgroup) = some cls)
    (h6 : db.subjects.find? (fun s => s.id == entry.subject) = some subj)
    (h7 : is_available parse teacher.availability new_ts.day_index
      new_ts.period_index = some tAv)
    (h8 : is_available parse new_room.availability new_ts.day_index
      new_ts.period_index = some rAv)
    (hdouble : db.entries.any (fun o => o.teacher == entry.teacher
      && o.timeslot == timeslot_id && o.id != entry.id) = true) :
    ∃ errs, update_entry parse db entry_id timeslot_id room_id =
        (UpdateResult.rejected errs, db.entries)
      ∧ ErrMsg.teacherDoubleBooked ∈ errs ∧ errs ≠ [] := by
  have hmem := teacherDouble_mem_validationErrors db entry new_room cls subj
    timeslot_id tAv rAv hdouble
  have hie : (validationErrors db entry new_room cls subj timeslot_id
      tAv rAv).isEmpty = false := by
    cases h : (validationErrors db entry new_room cls subj timeslot_id
        tAv rAv).isEmpty
    · rfl
    · rw [List.isEmpty_iff] at h
      rw [h] at hmem
      cases hmem
  refine ⟨validationErrors db entry new_room cls subj timeslot_id tAv rAv,
    ?_, hmem, ?_⟩
  · simp only [update_entry, h1, h2, h3, h4, h5, h6, h7, h8, hie,
      Bool.false_eq_true, if_false]
  · intro hnil
    rw [hnil] at hmem
    cases hmem

/-- First existing entry: teacher 1 teaching class 1 at slot 1. -/
def eEx8a : EntryRow := ⟨1, 1, 1, 1, 1, 1, false⟩

/-- Second existing entry: the same teacher already occupies slot 2. -/
def eEx8b : EntryRow := ⟨2, 1, 2, 1, 1, 2, false⟩

/-- Concrete view database for the rejection witness. -/
def dbEx8 : ViewDB :=
  ⟨[eEx8a, eEx8b], [tsEx1, tsEx4b], [rEx1], [tEx1], [cEx1], [sEx1]⟩

/-- C8 (witness): moving entry 1 to slot 2, where its teacher already has
entry 2, is rejected with the double-booking message and no write. -/
theorem c8_witness :
    ∃ errs, update_entry parseNone dbEx8 1 2 none =
        (UpdateResult.rejected errs, dbEx8.entries)
      ∧ ErrMsg.teacherDoubleBooked ∈ errs ∧ errs ≠ [] :=
  c8_manual_edit_rejection parseNone dbEx8 1 2 none eEx8a tsEx4b rEx1 tEx1
    cEx1 sEx1 true true rfl rfl rfl rfl rfl rfl rfl rfl rfl

end Timegrid
